import Mathlib

/-!
MoodMeme 3D: the frame loop of `script.js`.

A shallow embedding of the simulation-and-interaction loop of `src/script.js`:
the dust particle field, the vault rotation, the per-card scale and glow
update, pointer picking over the scene hierarchy, and the event handlers.

JavaScript numbers are idealised as rationals (`ℚ`): every arithmetic
operation of the source is exact here.  `Math.random` and `Math.sin` are
host functions and are taken as parameters.  Objects are identified by the
order of their creation (a natural number), the way `===` identifies them.
-/

namespace MoodMeme

/-! ## Dust particles (`createEnvironment`, `animate` part 3) -/

/-- One scalar slot of the dust field: `pos[i]` together with `velocities[i]`.
Both typed arrays are created with the same length `count * 3`, so the field
is kept as one sequence of slots. -/
structure Coord where
  pos : ℚ
  vel : ℚ
deriving DecidableEq, Repr

/-- The literal `count = 6000` of `createEnvironment`. -/
def count : Nat := 6000

/-- The fill loop of `createEnvironment`: slot `i` draws `Math.random()` twice,
first for `pos[i]`, then for `velocities[i]`.  The stream `random` gives the
successive results of `Math.random()`. -/
def createEnvironment (random : Nat → ℚ) : List Coord :=
  (List.range (count * 3)).map fun i =>
    { pos := (random (2 * i) - 0.5) * 100
      vel := (random (2 * i + 1) - 0.5) * 0.03 }

/-- The guard `Math.abs(pos[i]) > 60` of the dust loop. -/
def bounce (pos : ℚ) : Bool := decide (|pos| > 60)

/-- The body of the dust loop: `pos[i] += vel[i]; if (Math.abs(pos[i]) > 60) vel[i] *= -1`. -/
def stepCoord (c : Coord) : Coord :=
  let pos := c.pos + c.vel
  { pos := pos, vel := if bounce pos then c.vel * -1 else c.vel }

/-- The dust loop of one frame, over every slot of the arrays. -/
def animateDust (d : List Coord) : List Coord := d.map stepCoord

/-- The dust field after `n` frames. -/
def dustFrames : Nat → List Coord → List Coord
  | 0, d => d
  | n + 1, d => dustFrames n (animateDust d)

/-- One slot after `n` frames. -/
def coordFrames : Nat → Coord → Coord
  | 0, c => c
  | n + 1, c => coordFrames n (stepCoord c)

/-- The interval `[-B - maxVelocityStep, B + maxVelocityStep]` with `B = 60`
and `maxVelocityStep = 0.015`. -/
def InDriftBox (p : ℚ) : Prop := -60 - 0.015 ≤ p ∧ p ≤ 60 + 0.015

/-- A slot is either inside the cube, or it has just overshot a face and its
velocity already points back to the position it came from. -/
def Settled (c : Coord) : Prop :=
  |c.vel| ≤ 0.015 ∧ (|c.pos| ≤ 60 ∨ (60 < |c.pos| ∧ |c.pos + c.vel| ≤ 60))

/-! ## Cards, audio and the global `state` -/

/-- A `THREE.Vector3`. -/
structure Vector3 where
  x : ℚ
  y : ℚ
  z : ℚ
deriving DecidableEq, Repr

/-- The method `Vector3.lerp(v, alpha)` of three.js:
`this.x += (v.x - this.x) * alpha`, and the same for `y` and `z`. -/
def Vector3.lerp (a v : Vector3) (alpha : ℚ) : Vector3 :=
  { x := a.x + (v.x - a.x) * alpha
    y := a.y + (v.y - a.y) * alpha
    z := a.z + (v.z - a.z) * alpha }

/-- The function `THREE.MathUtils.lerp(x, y, t)` of three.js: `(1 - t) * x + t * y`. -/
def MathUtils.lerp (x y t : ℚ) : ℚ := (1 - t) * x + t * y

/-- The part of a `MeshStandardMaterial` that the loop writes. -/
structure Material where
  emissiveIntensity : ℚ
deriving DecidableEq, Repr

/-- A card group: its `userData` (`name`, `audio`, `baseY`, `offset`, `frontMat`,
`backMat`) and the two fields of the group itself that the loop writes
(`position.y` and `scale`).  `audio` is `none` when the image has no
`data-sound` attribute (`getAttribute` returns `null`). -/
structure Card where
  name : String
  audio : Option String
  baseY : ℚ
  offset : ℚ
  frontMat : Material
  backMat : Material
  positionY : ℚ
  scale : Vector3
deriving DecidableEq, Repr

/-- An `HTMLAudioElement`: its source and its `paused` attribute. -/
structure Audio where
  src : Option String
  paused : Bool
deriving DecidableEq, Repr

/-- The `parent` links of the `Object3D`s created so far.  Objects are numbered
in the order of their creation; `next` is the number of the next one. -/
structure Graph where
  parent : Nat → Option Nat
  next : Nat

/-- A constructor call `new THREE.Object3D()` (or a subclass): a fresh object without parent. -/
def Graph.new (g : Graph) : Nat × Graph :=
  (g.next, { g with next := g.next + 1 })

/-- The method `p.add(c)` of three.js, on the parent links: `c.parent = p`. -/
def Graph.add (g : Graph) (p c : Nat) : Graph :=
  { g with parent := Function.update g.parent c (some p) }

/-- An `img` element of `.meme-gallery`: its `alt` and its `data-sound` attribute. -/
structure Img where
  alt : String
  sound : Option String
deriving DecidableEq, Repr

/-- The global `state` object, with the parts of the host that the handlers
touch: the card behind each object identity (`object`), the audio elements
created so far (`audios`, `activeAudio` points into it), the callbacks pending
in `setTimeout` (`timers`: delay in milliseconds and the card whose `data` the
closure holds), and the texts written to `#active-meme-name` (`label`, oldest
first).  `object` gives the card data of every object; only the entries of
the card groups are ever read. -/
structure State where
  graph : Graph
  scene : Nat
  camera : Nat
  vaultGroup : Nat
  dustParticles : Nat
  object : Nat → Card
  cardGroups : List Nat
  intersected : Option Nat
  activeAudio : Option Nat
  audios : List Audio
  timers : List (Nat × Nat)
  label : List String
  scanOffsetY : ℚ
  vaultRotationY : ℚ
  dustRotationY : ℚ
  dust : List Coord
  mouseX : ℚ
  mouseY : ℚ
  currentRotationDir : ℚ
  isNavigating : Bool
  isInitialized : Bool

/-- The literal `baseRotationSpeed: 0.003`. -/
def baseRotationSpeed : ℚ := 0.003

/-- The literal `navRotationSpeed: 0.025`. -/
def navRotationSpeed : ℚ := 0.025

/-! ## Event handlers (`setupSideControls`, `bindEvents`) -/

/-- The four listeners of `setupSideControls`. -/
inductive NavEvent where
  | enterLeft
  | leaveLeft
  | enterRight
  | leaveRight
deriving DecidableEq, Repr

/-- Whether the event is a `mouseenter`. -/
def NavEvent.isEnter : NavEvent → Bool
  | .enterLeft => true
  | .enterRight => true
  | _ => false

/-- The bodies of the four listeners of `setupSideControls`. -/
def navEvent (s : State) : NavEvent → State
  | .enterLeft => { s with isNavigating := true, currentRotationDir := 1 }
  | .leaveLeft => { s with isNavigating := false }
  | .enterRight => { s with isNavigating := true, currentRotationDir := -1 }
  | .leaveRight => { s with isNavigating := false }

/-- A sequence of navigation events, in order. -/
def navEvents (s : State) (es : List NavEvent) : State := es.foldl navEvent s

/-- The `mousemove` listener: `e.clientX`, `e.clientY` and the viewport size
`window.innerWidth`, `window.innerHeight`. -/
def mousemove (clientX clientY innerWidth innerHeight : ℚ) (s : State) : State :=
  { s with
    mouseX := (clientX / innerWidth) * 2 - 1
    mouseY := -(clientY / innerHeight) * 2 + 1 }

/-- The method `pause()` on the audio element at `a`. -/
def pauseAudio (audios : List Audio) (a : Nat) : List Audio :=
  audios.modify (fun au => { au with paused := true }) a

/-- The method `play()` on the audio element at `a`: the element leaves the paused state. -/
def playAudio (audios : List Audio) (a : Nat) : List Audio :=
  audios.modify (fun au => { au with paused := false }) a

/-- The writes `data.frontMat.emissiveIntensity = v; data.backMat.emissiveIntensity = v`
on the card behind object `e`. -/
def setGlow (object : Nat → Card) (e : Nat) (v : ℚ) : Nat → Card :=
  Function.update object e
    { object e with frontMat := { emissiveIntensity := v }, backMat := { emissiveIntensity := v } }

/-- The `click` listener on `window`. -/
def click (s : State) : State :=
  match s.intersected with
  | none => s
  | some e =>
    let data := s.object e
    let audios1 := match s.activeAudio with
      | some a => pauseAudio s.audios a
      | none => s.audios
    let fresh := audios1.length
    let audios2 := audios1 ++ [{ src := data.audio, paused := true }]
    let audios3 := playAudio audios2 fresh
    { s with
      activeAudio := some fresh
      audios := audios3
      object := setGlow s.object e 3
      timers := s.timers ++ [(500, e)] }

/-- The callback that `click` hands to `setTimeout`, for the card behind `e`. -/
def flashReset (e : Nat) (s : State) : State :=
  { s with object := setGlow s.object e 0 }

/-- The host fires the oldest pending timer. -/
def fireTimer (s : State) : State :=
  match s.timers with
  | [] => s
  | (_, e) :: rest => flashReset e { s with timers := rest }

/-! ## The frame (`animate`) -/

/-- Part 1 of `animate`: the vault rotation. -/
def rotationSpeed (s : State) : ℚ :=
  if s.isNavigating then navRotationSpeed else baseRotationSpeed

/-- Part 1 of `animate`: `vaultGroup.rotation.y += speed * currentRotationDir`. -/
def rotateVault (s : State) : State :=
  { s with vaultRotationY := s.vaultRotationY + rotationSpeed s * s.currentRotationDir }

/-- The body of the `cardGroups.forEach` of `animate` for one group: float,
scale easing and glow.  `isHovered` is `state.intersected === group`. -/
def animateCard (sin : ℚ → ℚ) (time : ℚ) (isHovered : Bool) (d : Card) : Card :=
  let targetScale : ℚ := if isHovered then 1.25 else 1.0
  let scale := d.scale.lerp ⟨targetScale, targetScale, targetScale⟩ 0.1
  if isHovered then
    let p := 0.3 + sin (time * 8) * 0.3
    { d with
      positionY := d.baseY + sin (time + d.offset) * 0.4
      scale := scale
      frontMat := { emissiveIntensity := p }
      backMat := { emissiveIntensity := p } }
  else
    { d with
      positionY := d.baseY + sin (time + d.offset) * 0.4
      scale := scale
      frontMat := { emissiveIntensity := MathUtils.lerp d.frontMat.emissiveIntensity 0 0.1 }
      backMat := { emissiveIntensity := MathUtils.lerp d.backMat.emissiveIntensity 0 0.1 } }

/-- Part 2 of `animate`: the `forEach` over `state.cardGroups`, in order. -/
def animateCards (sin : ℚ → ℚ) (time : ℚ) (s : State) : State :=
  { s with
    scanOffsetY := if s.cardGroups = [] then s.scanOffsetY else time * 0.15
    object := s.cardGroups.foldl
      (fun obj group =>
        Function.update obj group
          (animateCard sin time (decide (s.intersected = some group)) (obj group)))
      s.object }

/-- Part 3 of `animate`: the dust loop and the rotation of the field. -/
def animateParticles (s : State) : State :=
  { s with dust := animateDust s.dust, dustRotationY := s.dustRotationY + 0.001 }

/-- Part 4 of `animate` after the ray cast: `pick` is `none` when
`intersects` is empty, and otherwise the object at which the ancestor walk
from `intersects[0].object` stops. -/
def pickStep (pick : Option Nat) (s : State) : State :=
  match pick with
  | some obj =>
    if s.intersected ≠ some obj then
      { s with intersected := some obj, label := s.label ++ [(s.object obj).name] }
    else s
  | none =>
    if s.isInitialized then
      { s with intersected := none, label := s.label ++ ["SCANNING_VAULT"] }
    else
      { s with intersected := none }

/-- One call of `animate`, given the elapsed time and the result of the ray cast. -/
def animate (sin : ℚ → ℚ) (time : ℚ) (pick : Option Nat) (s : State) : State :=
  pickStep pick (animateParticles (animateCards sin time (rotateVault s)))

/-- The state after `n` calls of `animate` in each of which the pick is `e`;
`times k` is the elapsed time read by call `k`. -/
def hoverRun (sin : ℚ → ℚ) (times : Nat → ℚ) (e : Nat) : Nat → State → State
  | 0, s => s
  | n + 1, s => animate sin (times n) (some e) (hoverRun sin times e n s)

/-- The picking steps of consecutive frames, one pick result per frame. -/
def pickFrames (s : State) (picks : List (Option Nat)) : State :=
  picks.foldl (fun s p => pickStep p s) s

/-! ## Building the scene (`init`, `buildMemeArchive`, `createBrackets`) -/

/-- The function `createBrackets`: a group with one `THREE.Line` per corner. -/
def createBrackets (g : Graph) : Nat × Graph :=
  let (group, g) := g.new
  let g := [0, 1, 2, 3].foldl
    (fun g _ =>
      let (line, g) := g.new
      g.add group line)
    g
  (group, g)

/-- The name given to card `i`: `img.alt`, or `ARCHIVE_i` when `alt` is empty. -/
def cardName (img : Img) (i : Nat) : String :=
  if img.alt = "" then "ARCHIVE_" ++ toString i else img.alt

/-- The body of the `htmlMemes.forEach` of `buildMemeArchive` for image `img` at index `i`. -/
def buildCard (s : State) (img : Img) (i : Nat) : State :=
  let (cardGroup, g) := s.graph.new
  let (glass, g) := g.new
  let g := g.add cardGroup glass
  let (frontMesh, g) := g.new
  let g := g.add cardGroup frontMesh
  let (backMesh, g) := g.new
  let g := g.add cardGroup backMesh
  let (holoF, g) := g.new
  let g := g.add cardGroup holoF
  let (holoB, g) := g.new
  let g := g.add cardGroup holoB
  let (brackets, g) := createBrackets g
  let g := g.add cardGroup brackets
  let userData : Card :=
    { name := cardName img i
      audio := img.sound
      baseY := 1
      offset := i
      frontMat := { emissiveIntensity := 0 }
      backMat := { emissiveIntensity := 0 }
      positionY := 1
      scale := ⟨1, 1, 1⟩ }
  { s with
    object := Function.update s.object cardGroup userData
    cardGroups := s.cardGroups ++ [cardGroup]
    graph := g.add s.vaultGroup cardGroup }

/-- The `forEach` of `buildMemeArchive`, from index `i` on. -/
def buildFrom : Nat → List Img → State → State
  | _, [], s => s
  | i, img :: rest, s => buildFrom (i + 1) rest (buildCard s img i)

/-- The function `buildMemeArchive` on the images of `.meme-gallery`. -/
def buildMemeArchive (imgs : List Img) (s : State) : State := buildFrom 0 imgs s

/-- The `userData` of an object that is not a card group: it is never read. -/
def noCard : Card :=
  { name := "undefined", audio := none, baseY := 0, offset := 0
    frontMat := { emissiveIntensity := 0 }, backMat := { emissiveIntensity := 0 }
    positionY := 0, scale := ⟨1, 1, 1⟩ }

/-- The function `init` up to the first call of `animate`: the scene, the
camera, the vault group, the three lights of `setupLights`, the dust and the
grid of `createEnvironment`, then the cards. -/
def init (imgs : List Img) (random : Nat → ℚ) : State :=
  let g : Graph := { parent := fun _ => none, next := 0 }
  let (scene, g) := g.new
  let (camera, g) := g.new
  let (vaultGroup, g) := g.new
  let g := g.add scene vaultGroup
  let (ambient, g) := g.new
  let g := g.add scene ambient
  let (p1, g) := g.new
  let g := g.add scene p1
  let (p2, g) := g.new
  let g := g.add scene p2
  let (dustParticles, g) := g.new
  let g := g.add scene dustParticles
  let (grid, g) := g.new
  let g := g.add scene grid
  buildMemeArchive imgs
    { graph := g
      scene := scene
      camera := camera
      vaultGroup := vaultGroup
      dustParticles := dustParticles
      object := fun _ => noCard
      cardGroups := []
      intersected := none
      activeAudio := none
      audios := []
      timers := []
      label := []
      scanOffsetY := 0
      vaultRotationY := 0
      dustRotationY := 0
      dust := createEnvironment random
      mouseX := 0
      mouseY := 0
      currentRotationDir := 1
      isNavigating := false
      isInitialized := false }

/-! ## The ancestor walk of the picking step -/

/-- The loop `while (obj.parent && !state.cardGroups.includes(obj)) obj = obj.parent`,
with a bound on the number of tests of its condition; `none` when the bound is
reached before the loop stops. -/
def ancestorWalk (g : Graph) (cardGroups : List Nat) : Nat → Nat → Option Nat
  | 0, _ => none
  | fuel + 1, obj =>
    match g.parent obj with
    | some p => if obj ∈ cardGroups then some obj else ancestorWalk g cardGroups fuel p
    | none => some obj

/-- The object reached from `obj` by following `parent` exactly `k` times. -/
def ancestor (g : Graph) : Nat → Nat → Option Nat
  | 0, obj => some obj
  | k + 1, obj => (g.parent obj).bind (ancestor g k)

/-- Whether `obj` is `e` or a descendant of `e` at any depth. -/
def IsWithin (g : Graph) (e obj : Nat) : Prop := ∃ k, ancestor g k obj = some e

/-- Part 4 of `animate` with its loop: `hit` is `intersects[0].object`, or
`none` when `intersects` is empty. -/
def raycastStep (fuel : Nat) (hit : Option Nat) (s : State) : Option State :=
  match hit with
  | none => some (pickStep none s)
  | some h => (ancestorWalk s.graph s.cardGroups fuel h).map fun obj => pickStep (some obj) s

/-! ## A small gallery used in the examples -/

/-- A gallery of two images: the first has a label and a sound, the second has neither. -/
def gallery : List Img := [⟨"DOGE", some "wow.mp3"⟩, ⟨"", none⟩]

/-- The state after `init` on `gallery`, with every `Math.random()` giving `1/2`. -/
def vault : State := init gallery fun _ => 1 / 2

/-- The vault after a frame that picks the first card and a click on it: its sound is playing. -/
def playing : State := click (pickStep (some 8) vault)

/-- The state `playing` after a frame that picks the second card, which has no sound. -/
def quietPick : State := pickStep (some 19) playing

/-- The parent of object `id` in a scene of `k` cards, read off the order in
which `init` and `buildCard` create the objects: the scene is `0`, the camera
`1`, the vault group `2`, the lights, the dust and the grid `3` to `7`, and
card `i` occupies `8 + 11 * i` (the group), then glass, front plane, back
plane, the two holo planes, the bracket group and its four lines. -/
def parentSpec (k id : Nat) : Option Nat :=
  if id < 8 then
    if id = 0 ∨ id = 1 then none else some 0
  else if id < 8 + 11 * k then
    if (id - 8) % 11 = 0 then some 2
    else if (id - 8) % 11 ≤ 6 then some (id - (id - 8) % 11)
    else some (id - (id - 8) % 11 + 6)
  else none

/-- The shape of the state after `init` has built `k` cards. -/
def Built (s : State) (k : Nat) : Prop :=
  s.graph.next = 8 + 11 * k ∧ s.scene = 0 ∧ s.vaultGroup = 2 ∧
  s.cardGroups = (List.range k).map (fun i => 8 + 11 * i) ∧
  ∀ id, s.graph.parent id = parentSpec k id

/-! Theorems about the definitions above. -/

/-! ## Dust particles: bounded drift and bounces -/

theorem stepCoord_pos (c : Coord) : (stepCoord c).pos = c.pos + c.vel := rfl

theorem stepCoord_vel (c : Coord) :
    (stepCoord c).vel = if bounce (c.pos + c.vel) then c.vel * -1 else c.vel := rfl

theorem bounce_iff (p : ℚ) : bounce p = true ↔ 60 < |p| := by
  simp [bounce]

theorem bounce_false_iff (p : ℚ) : bounce p = false ↔ |p| ≤ 60 := by
  simp [bounce]

theorem abs_stepCoord_vel (c : Coord) : |(stepCoord c).vel| = |c.vel| := by
  rw [stepCoord_vel]
  split
  · simp
  · rfl

theorem settled_stepCoord (c : Coord) (h : Settled c) : Settled (stepCoord c) := by
  obtain ⟨hv, hp⟩ := h
  refine ⟨by rw [abs_stepCoord_vel]; exact hv, ?_⟩
  by_cases hb : 60 < |c.pos + c.vel|
  · right
    refine ⟨by rw [stepCoord_pos]; exact hb, ?_⟩
    rw [stepCoord_pos, stepCoord_vel, if_pos ((bounce_iff _).mpr hb)]
    rcases hp with hp | ⟨_, hp⟩
    · simpa using hp
    · exact absurd hb (not_lt.mpr hp)
  · left
    rw [stepCoord_pos]
    exact not_lt.mp hb

theorem settled_coordFrames (n : Nat) (c : Coord) (h : Settled c) :
    Settled (coordFrames n c) := by
  induction n generalizing c with
  | zero => exact h
  | succ n ih => exact ih _ (settled_stepCoord c h)

theorem settled_bound (c : Coord) (h : Settled c) : InDriftBox c.pos := by
  obtain ⟨hv, hp⟩ := h
  rw [abs_le] at hv
  rcases hp with hp | ⟨_, hp⟩
  · rw [abs_le] at hp
    constructor <;> linarith [hp.1, hp.2]
  · rw [abs_le] at hp
    constructor <;> linarith [hp.1, hp.2, hv.1, hv.2]

theorem dustFrames_eq_map (n : Nat) (d : List Coord) :
    dustFrames n d = d.map (coordFrames n) := by
  induction n generalizing d with
  | zero => simp [dustFrames, coordFrames]
  | succ n ih =>
    simp only [dustFrames, animateDust, ih, List.map_map]
    rfl

theorem settled_createEnvironment (random : Nat → ℚ)
    (hr : ∀ k, 0 ≤ random k ∧ random k < 1) :
    ∀ c ∈ createEnvironment random, |c.pos| ≤ 50 ∧ |c.vel| ≤ 0.015 := by
  intro c hc
  simp only [createEnvironment, List.mem_map, List.mem_range] at hc
  obtain ⟨i, _, rfl⟩ := hc
  have h1 := hr (2 * i)
  have h2 := hr (2 * i + 1)
  constructor
  · rw [abs_le]; constructor <;> norm_num <;> linarith [h1.1, h1.2]
  · rw [abs_le]; constructor <;> norm_num <;> linarith [h2.1, h2.2]

theorem settled_of_initial (c : Coord) (hp : |c.pos| ≤ 50) (hv : |c.vel| ≤ 0.015) :
    Settled c :=
  ⟨hv, Or.inl (le_trans hp (by norm_num))⟩

theorem length_dustFrames (n : Nat) (d : List Coord) : (dustFrames n d).length = d.length := by
  rw [dustFrames_eq_map, List.length_map]

theorem length_createEnvironment (random : Nat → ℚ) :
    (createEnvironment random).length = 3 * 6000 := by
  simp [createEnvironment, count]

/-- C1. Bounded drift: a slot that starts as `createEnvironment` makes it
(`|pos| ≤ 50`, `|vel| ≤ 0.015`) stays within `[-60 - 0.015, 60 + 0.015]` after
any number of frames, and so does every slot of the field that
`createEnvironment` builds from any `Math.random` stream with values in `[0, 1)`. -/
theorem particle_bounded_drift (c : Coord) (hp : |c.pos| ≤ 50) (hv : |c.vel| ≤ 0.015)
    (random : Nat → ℚ) (hr : ∀ k, 0 ≤ random k ∧ random k < 1) (n : Nat) :
    InDriftBox (coordFrames n c).pos ∧
      ∀ d ∈ dustFrames n (createEnvironment random), InDriftBox d.pos := by
  refine ⟨settled_bound _ (settled_coordFrames n c (settled_of_initial c hp hv)), ?_⟩
  intro d hd
  rw [dustFrames_eq_map, List.mem_map] at hd
  obtain ⟨c0, hc0, rfl⟩ := hd
  obtain ⟨h1, h2⟩ := settled_createEnvironment random hr c0 hc0
  exact settled_bound _ (settled_coordFrames n c0 (settled_of_initial c0 h1 h2))

theorem particle_bounded_drift_witness :
    InDriftBox (coordFrames 3 ⟨50, 0.015⟩).pos ∧
      ∀ d ∈ dustFrames 3 (createEnvironment fun _ => 1 / 2), InDriftBox d.pos :=
  particle_bounded_drift ⟨50, 0.015⟩ (by norm_num [abs_le]) (by norm_num [abs_le])
    (fun _ => 1 / 2) (fun _ => by norm_num) 3

/-- C8. One flip per crossing: from `|pos| ≤ 60` (and any velocity, so in
particular `|vel| ≤ 0.015`), the dust step negates the velocity exactly when the updated position has `|pos| > 60`;
when it does, the velocity really changes sign, the following frame brings the
slot back to `|pos| ≤ 60` and leaves the velocity alone.  Every step keeps
`|vel|`, and every frame keeps the number of slots, which is `3 * 6000`. -/
theorem one_flip_per_crossing (c : Coord) (hp : |c.pos| ≤ 60)
    (random : Nat → ℚ) (n : Nat) :
    ((stepCoord c).vel = if bounce (stepCoord c).pos then -c.vel else c.vel) ∧
    (bounce (stepCoord c).pos = true →
      (stepCoord c).vel = -c.vel ∧ (stepCoord c).vel ≠ c.vel ∧
      |(stepCoord (stepCoord c)).pos| ≤ 60 ∧
      bounce (stepCoord (stepCoord c)).pos = false ∧
      (stepCoord (stepCoord c)).vel = (stepCoord c).vel) ∧
    |(stepCoord c).vel| = |c.vel| ∧
    (∀ m, |(coordFrames m c).vel| = |c.vel|) ∧
    (∀ d : List Coord, (animateDust d).length = d.length) ∧
    (dustFrames n (createEnvironment random)).length = 3 * 6000 := by
  have hvel : ∀ m (c : Coord), |(coordFrames m c).vel| = |c.vel| := by
    intro m
    induction m with
    | zero => intro c; rfl
    | succ m ih => intro c; rw [coordFrames, ih, abs_stepCoord_vel]
  refine ⟨?_, ?_, abs_stepCoord_vel c, fun m => hvel m c, ?_, ?_⟩
  · rw [stepCoord_vel, stepCoord_pos]
    split <;> simp
  · intro hb
    rw [stepCoord_pos] at hb
    have hb' := (bounce_iff _).mp hb
    have hv1 : (stepCoord c).vel = -c.vel := by
      rw [stepCoord_vel, if_pos hb]; simp
    have hne : c.vel ≠ 0 := by
      intro h0
      rw [h0, add_zero] at hb'
      exact absurd hp (not_le.mpr hb')
    have hback : (stepCoord (stepCoord c)).pos = c.pos := by
      rw [stepCoord_pos, hv1, stepCoord_pos]; ring
    refine ⟨hv1, ?_, ?_, ?_, ?_⟩
    · rw [hv1]
      intro h
      apply hne
      linarith
    · rw [hback]; exact hp
    · rw [hback]; exact (bounce_false_iff _).mpr hp
    · have hnb : bounce ((stepCoord c).pos + (stepCoord c).vel) = false := by
        rw [← stepCoord_pos, hback]; exact (bounce_false_iff _).mpr hp
      rw [stepCoord_vel (stepCoord c), hnb]
      simp
  · intro d; simp [animateDust]
  · rw [length_dustFrames, length_createEnvironment]

theorem one_flip_per_crossing_witness :
    bounce (stepCoord ⟨59.99, 0.015⟩).pos = true ∧
    (stepCoord ⟨59.99, 0.015⟩).vel = -0.015 ∧
    bounce (stepCoord (stepCoord ⟨59.99, 0.015⟩)).pos = false ∧
    (stepCoord (stepCoord ⟨59.99, 0.015⟩)).vel = -0.015 ∧
    (dustFrames 2 (createEnvironment fun _ => 0)).length = 3 * 6000 := by
  have h := one_flip_per_crossing ⟨59.99, 0.015⟩ (by norm_num [abs_le]) (fun _ => 0) 2
  have hb : bounce (stepCoord ⟨59.99, 0.015⟩).pos = true := by
    rw [bounce_iff, stepCoord_pos]; norm_num [abs_of_pos]
  obtain ⟨h1, h2, h3, h4⟩ := h.2.1 hb
  refine ⟨hb, h1, h4.1, ?_, h.2.2.2.2.2⟩
  rw [h4.2, h1]

/-! ## The frame and the card data -/

theorem foldl_update_apply (f : Nat → Card → Card) (l : List Nat) (hl : l.Nodup)
    (obj : Nat → Card) (e : Nat) :
    (l.foldl (fun obj g => Function.update obj g (f g (obj g))) obj) e =
      if e ∈ l then f e (obj e) else obj e := by
  induction l generalizing obj with
  | nil => simp
  | cons g rest ih =>
    rw [List.nodup_cons] at hl
    rw [List.foldl_cons, ih hl.2]
    by_cases heg : e = g
    · subst heg
      simp [hl.1]
    · simp [Function.update_noteq heg, heg]

theorem animateCards_object (sin : ℚ → ℚ) (t : ℚ) (s : State) (hl : s.cardGroups.Nodup)
    (e : Nat) :
    (animateCards sin t s).object e =
      if e ∈ s.cardGroups then animateCard sin t (decide (s.intersected = some e)) (s.object e)
      else s.object e :=
  foldl_update_apply (fun g d => animateCard sin t (decide (s.intersected = some g)) d)
    s.cardGroups hl s.object e

theorem animateCard_name (sin : ℚ → ℚ) (t : ℚ) (b : Bool) (d : Card) :
    (animateCard sin t b d).name = d.name := by
  unfold animateCard
  split <;> rfl

theorem foldl_update_name (f : Nat → Card → Card) (hf : ∀ g d, (f g d).name = d.name)
    (l : List Nat) (obj : Nat → Card) (e : Nat) :
    ((l.foldl (fun obj g => Function.update obj g (f g (obj g))) obj) e).name = (obj e).name := by
  induction l generalizing obj with
  | nil => rfl
  | cons g rest ih =>
    rw [List.foldl_cons, ih]
    by_cases heg : e = g
    · subst heg
      simp [hf]
    · simp [Function.update_noteq heg]

theorem animateCards_name (sin : ℚ → ℚ) (t : ℚ) (s : State) (e : Nat) :
    ((animateCards sin t s).object e).name = (s.object e).name :=
  foldl_update_name (fun g d => animateCard sin t (decide (s.intersected = some g)) d)
    (fun _ _ => animateCard_name _ _ _ _) s.cardGroups s.object e

theorem pickStep_object (p : Option Nat) (s : State) : (pickStep p s).object = s.object := by
  unfold pickStep
  split <;> split <;> rfl

theorem pickStep_cardGroups (p : Option Nat) (s : State) :
    (pickStep p s).cardGroups = s.cardGroups := by
  unfold pickStep
  split <;> split <;> rfl

theorem pickStep_some_intersected (e : Nat) (s : State) :
    (pickStep (some e) s).intersected = some e := by
  unfold pickStep
  by_cases h : s.intersected = some e
  · simp [h]
  · simp [h]

theorem pickStep_some_label (e : Nat) (s : State) :
    (pickStep (some e) s).label =
      if s.intersected = some e then s.label else s.label ++ [(s.object e).name] := by
  unfold pickStep
  by_cases h : s.intersected = some e
  · simp [h]
  · simp [h]

theorem animate_object (sin : ℚ → ℚ) (t : ℚ) (p : Option Nat) (s : State) :
    (animate sin t p s).object = (animateCards sin t s).object := by
  unfold animate
  rw [pickStep_object]
  rfl

theorem animate_cardGroups (sin : ℚ → ℚ) (t : ℚ) (p : Option Nat) (s : State) :
    (animate sin t p s).cardGroups = s.cardGroups := by
  unfold animate
  rw [pickStep_cardGroups]
  rfl

theorem animate_some_intersected (sin : ℚ → ℚ) (t : ℚ) (e : Nat) (s : State) :
    (animate sin t (some e) s).intersected = some e := by
  unfold animate
  exact pickStep_some_intersected _ _

theorem animate_some_label (sin : ℚ → ℚ) (t : ℚ) (e : Nat) (s : State) :
    (animate sin t (some e) s).label =
      if s.intersected = some e then s.label else s.label ++ [(s.object e).name] := by
  unfold animate
  rw [pickStep_some_label]
  have hn : ((animateParticles (animateCards sin t (rotateVault s))).object e).name =
      (s.object e).name := animateCards_name sin t (rotateVault s) e
  rw [hn]
  rfl

theorem hoverRun_intersected (sin : ℚ → ℚ) (times : Nat → ℚ) (e : Nat) (n : Nat) (s : State)
    (h : s.intersected = some e) : (hoverRun sin times e n s).intersected = some e := by
  cases n with
  | zero => exact h
  | succ n => exact animate_some_intersected _ _ _ _

theorem hoverRun_cardGroups (sin : ℚ → ℚ) (times : Nat → ℚ) (e : Nat) (n : Nat) (s : State) :
    (hoverRun sin times e n s).cardGroups = s.cardGroups := by
  induction n with
  | zero => rfl
  | succ n ih => rw [hoverRun, animate_cardGroups, ih]

/-! ## Vault rotation -/

theorem navEvents_cons (s : State) (e : NavEvent) (es : List NavEvent) :
    navEvents s (e :: es) = navEvents (navEvent s e) es :=
  List.foldl_cons _ _

/-- C7. Sticky direction: a leave event keeps `currentRotationDir` and makes
the speed of the next frame `baseRotationSpeed = 0.003`; enter-left sets the
direction to `+1`, enter-right to `-1`, both with speed `navRotationSpeed =
0.025`; along every event sequence the direction can only differ after an
enter event, a sequence of leave events keeps it, and a frame adds exactly
`speed * direction` to the yaw and keeps the direction. -/
theorem sticky_rotation_direction (s : State) :
    (∀ e, e.isEnter = false →
      (navEvent s e).currentRotationDir = s.currentRotationDir ∧
      rotationSpeed (navEvent s e) = 0.003) ∧
    ((navEvent s .enterLeft).currentRotationDir = 1 ∧
      rotationSpeed (navEvent s .enterLeft) = 0.025) ∧
    ((navEvent s .enterRight).currentRotationDir = -1 ∧
      rotationSpeed (navEvent s .enterRight) = 0.025) ∧
    (∀ es e, (navEvent (navEvents s es) e).currentRotationDir ≠
        (navEvents s es).currentRotationDir → e.isEnter = true) ∧
    (∀ es, (∀ e ∈ es, e.isEnter = false) →
      (navEvents s es).currentRotationDir = s.currentRotationDir) ∧
    (∀ sin t p,
      (animate sin t p s).vaultRotationY =
        s.vaultRotationY + rotationSpeed s * s.currentRotationDir ∧
      (animate sin t p s).currentRotationDir = s.currentRotationDir ∧
      (animate sin t p s).isNavigating = s.isNavigating) := by
  have hleave : ∀ (s : State) (e : NavEvent), e.isEnter = false →
      (navEvent s e).currentRotationDir = s.currentRotationDir := by
    intro s e he
    cases e <;> simp_all [NavEvent.isEnter, navEvent]
  refine ⟨?_, ?_, ?_, ?_, ?_, ?_⟩
  · intro e he
    refine ⟨hleave s e he, ?_⟩
    cases e <;> simp_all [NavEvent.isEnter, navEvent, rotationSpeed, baseRotationSpeed]
  · simp [navEvent, rotationSpeed, navRotationSpeed]
  · simp [navEvent, rotationSpeed, navRotationSpeed]
  · intro es e hne
    by_contra he
    exact hne (hleave _ e (by simpa using he))
  · intro es
    induction es using List.reverseRecOn with
    | nil => intro _; rfl
    | append_singleton es e ih =>
      intro h
      rw [navEvents, List.foldl_append, List.foldl_cons, List.foldl_nil]
      rw [hleave _ e (h e (by simp))]
      exact ih (fun e he => h e (by simp [he]))
  · intro sin t p
    unfold animate pickStep
    refine ⟨?_, ?_, ?_⟩ <;> (split <;> split <;> rfl)

theorem sticky_rotation_direction_witness :
    (navEvents (init [] fun _ => 0)
        [.enterRight, .leaveRight, .leaveLeft]).currentRotationDir = -1 ∧
    rotationSpeed (navEvent (init [] fun _ => 0) .leaveRight) = 0.003 := by
  have h := sticky_rotation_direction (navEvent (init [] fun _ => 0) .enterRight)
  have h5 := h.2.2.2.2.1 [.leaveRight, .leaveLeft] (by simp [NavEvent.isEnter])
  have h0 := sticky_rotation_direction (init [] fun _ => 0)
  rw [navEvents_cons, h5]
  exact ⟨h0.2.2.1.1, (h0.1 .leaveRight rfl).2⟩

/-! ## The example gallery -/

theorem vault_cardGroups : vault.cardGroups = [8, 19] := by
  simp [vault, init, gallery, buildMemeArchive, buildFrom, buildCard, Graph.new, Graph.add,
    createBrackets]

theorem vault_intersected : vault.intersected = none := by
  simp [vault, init, gallery, buildMemeArchive, buildFrom, buildCard, Graph.new, Graph.add,
    createBrackets]

theorem vault_label : vault.label = [] := by
  simp [vault, init, gallery, buildMemeArchive, buildFrom, buildCard, Graph.new, Graph.add,
    createBrackets]

theorem vault_object_8 : vault.object 8 =
    { name := "DOGE", audio := some "wow.mp3", baseY := 1, offset := 0
      frontMat := { emissiveIntensity := 0 }, backMat := { emissiveIntensity := 0 }
      positionY := 1, scale := ⟨1, 1, 1⟩ } := by
  simp [vault, init, gallery, buildMemeArchive, buildFrom, buildCard, Graph.new, Graph.add,
    createBrackets, cardName]

theorem vault_object_19 : vault.object 19 =
    { name := "ARCHIVE_1", audio := none, baseY := 1, offset := 1
      frontMat := { emissiveIntensity := 0 }, backMat := { emissiveIntensity := 0 }
      positionY := 1, scale := ⟨1, 1, 1⟩ } := by
  simp [vault, init, gallery, buildMemeArchive, buildFrom, buildCard, Graph.new, Graph.add,
    createBrackets, cardName]
  decide

theorem vault_audios : vault.audios = [] := by
  simp [vault, init, gallery, buildMemeArchive, buildFrom, buildCard, Graph.new, Graph.add,
    createBrackets]

theorem vault_timers : vault.timers = [] := by
  simp [vault, init, gallery, buildMemeArchive, buildFrom, buildCard, Graph.new, Graph.add,
    createBrackets]

theorem pickStep_audios (p : Option Nat) (s : State) :
    (pickStep p s).audios = s.audios ∧ (pickStep p s).activeAudio = s.activeAudio ∧
    (pickStep p s).timers = s.timers := by
  unfold pickStep
  split <;> split <;> exact ⟨rfl, rfl, rfl⟩

/-! ## Picking and the label -/

/-- C5. The label is written once per hover transition: a frame whose pick is
`e` leaves `state.intersected = e` and appends the name of `e` to the label
writes exactly when `state.intersected` was not `e` before the frame, and
writes nothing otherwise; so over a run of `n + 1` frames that all pick `e`,
entered with another pick, the name is written once, by the first frame, and
every later frame writes nothing and keeps `state.intersected = e`. -/
theorem label_once_per_transition (sin : ℚ → ℚ) (times : Nat → ℚ) (s : State) (e : Nat) :
    (∀ t, (animate sin t (some e) s).intersected = some e ∧
      (animate sin t (some e) s).label =
        if s.intersected = some e then s.label else s.label ++ [(s.object e).name]) ∧
    ((pickStep (some e) s).label ≠ s.label ↔ s.intersected ≠ some e) ∧
    (s.intersected ≠ some e →
      (hoverRun sin times e 1 s).label = s.label ++ [(s.object e).name] ∧
      ∀ n, (hoverRun sin times e (n + 1) s).label = s.label ++ [(s.object e).name] ∧
        (hoverRun sin times e (n + 1) s).intersected = some e ∧
        (hoverRun sin times e (n + 2) s).label = (hoverRun sin times e (n + 1) s).label) := by
  have hrun : s.intersected ≠ some e → ∀ n,
      (hoverRun sin times e (n + 1) s).label = s.label ++ [(s.object e).name] ∧
      (hoverRun sin times e (n + 1) s).intersected = some e := by
    intro hne n
    induction n with
    | zero =>
      refine ⟨?_, animate_some_intersected _ _ _ _⟩
      show (animate sin (times 0) (some e) s).label = _
      rw [animate_some_label, if_neg hne]
    | succ n ih =>
      refine ⟨?_, animate_some_intersected _ _ _ _⟩
      show (animate sin (times (n + 1)) (some e) (hoverRun sin times e (n + 1) s)).label = _
      rw [animate_some_label, if_pos ih.2, ih.1]
  refine ⟨fun t => ⟨animate_some_intersected _ _ _ _, animate_some_label _ _ _ _⟩, ?_, ?_⟩
  · rw [pickStep_some_label]
    by_cases h : s.intersected = some e
    · simp [h]
    · simp [h]
  · intro hne
    refine ⟨(hrun hne 0).1, fun n => ⟨(hrun hne n).1, (hrun hne n).2, ?_⟩⟩
    rw [(hrun hne (n + 1)).1, (hrun hne n).1]

/-! ## Pointer coordinates -/

/-- C10, as the code has it: the `mousemove` listener stores
`x = clientX / innerWidth * 2 - 1` and `y = -(clientY / innerHeight) * 2 + 1`
as computed, without clamping; for a positive viewport size `x` lies in
`[-1, 1]` exactly when `0 ≤ clientX ≤ innerWidth`, and `y` lies in `[-1, 1]`
exactly when `0 ≤ clientY ≤ innerHeight`. -/
theorem mousemove_ndc_range (clientX clientY innerWidth innerHeight : ℚ) (s : State)
    (hw : 0 < innerWidth) (hh : 0 < innerHeight) :
    (mousemove clientX clientY innerWidth innerHeight s).mouseX =
      clientX / innerWidth * 2 - 1 ∧
    (mousemove clientX clientY innerWidth innerHeight s).mouseY =
      -(clientY / innerHeight) * 2 + 1 ∧
    ((-1 ≤ (mousemove clientX clientY innerWidth innerHeight s).mouseX ∧
        (mousemove clientX clientY innerWidth innerHeight s).mouseX ≤ 1) ↔
      (0 ≤ clientX ∧ clientX ≤ innerWidth)) ∧
    ((-1 ≤ (mousemove clientX clientY innerWidth innerHeight s).mouseY ∧
        (mousemove clientX clientY innerWidth innerHeight s).mouseY ≤ 1) ↔
      (0 ≤ clientY ∧ clientY ≤ innerHeight)) := by
  have key : ∀ c w : ℚ, 0 < w → ((0 ≤ c / w ∧ c / w ≤ 1) ↔ (0 ≤ c ∧ c ≤ w)) := by
    intro c w hw
    rw [le_div_iff₀ hw, div_le_iff₀ hw]
    simp
  refine ⟨rfl, rfl, ?_, ?_⟩
  · show (-1 ≤ clientX / innerWidth * 2 - 1 ∧ clientX / innerWidth * 2 - 1 ≤ 1) ↔ _
    rw [← key clientX innerWidth hw]
    constructor
    · rintro ⟨h1, h2⟩; constructor <;> linarith
    · rintro ⟨h1, h2⟩; constructor <;> linarith
  · show (-1 ≤ -(clientY / innerHeight) * 2 + 1 ∧ -(clientY / innerHeight) * 2 + 1 ≤ 1) ↔ _
    rw [← key clientY innerHeight hh]
    constructor
    · rintro ⟨h1, h2⟩; constructor <;> linarith
    · rintro ⟨h1, h2⟩; constructor <;> linarith

theorem mousemove_ndc_range_witness :
    (-1 ≤ (mousemove 25 100 100 100 (init [] fun _ => 0)).mouseX ∧
        (mousemove 25 100 100 100 (init [] fun _ => 0)).mouseX ≤ 1) ∧
    (mousemove 25 100 100 100 (init [] fun _ => 0)).mouseY = -1 := by
  have h := mousemove_ndc_range 25 100 100 100 (init [] fun _ => 0) (by norm_num) (by norm_num)
  refine ⟨h.2.2.1.mpr (by norm_num), ?_⟩
  rw [h.2.1]
  norm_num

/-- C10 fails as stated: a pointer event left of the viewport (`clientX = -100`
with `innerWidth = 100`) stores `x = -3`, which is below `-1`. -/
theorem mousemove_not_clamped :
    (mousemove (-100) 50 100 100 (init [] fun _ => 0)).mouseX = -3 ∧
    ¬ (-1 ≤ (mousemove (-100) 50 100 100 (init [] fun _ => 0)).mouseX) := by
  have h : (mousemove (-100) 50 100 100 (init [] fun _ => 0)).mouseX = -3 := by
    show (-100 : ℚ) / 100 * 2 - 1 = -3
    norm_num
  rw [h]
  exact ⟨rfl, by norm_num⟩

/-! ## The click handler -/

theorem setGlow_same (object : Nat → Card) (e : Nat) (v : ℚ) :
    (setGlow object e v e).frontMat.emissiveIntensity = v ∧
    (setGlow object e v e).backMat.emissiveIntensity = v := by
  simp [setGlow]

theorem setGlow_other (object : Nat → Card) (e : Nat) (v : ℚ) (x : Nat) (hx : x ≠ e) :
    setGlow object e v x = object x := by
  simp [setGlow, Function.update_noteq hx]

theorem setGlow_keeps (object : Nat → Card) (e : Nat) (v : ℚ) (x : Nat) :
    (setGlow object e v x).name = (object x).name ∧
    (setGlow object e v x).audio = (object x).audio ∧
    (setGlow object e v x).scale = (object x).scale := by
  by_cases hx : x = e
  · subst hx; simp [setGlow]
  · simp [setGlow_other _ _ _ _ hx]

/-- The audio list after the three audio statements of `click`. -/
theorem click_audios (s : State) (e : Nat) (h : s.intersected = some e) :
    (click s).audios =
      playAudio ((match s.activeAudio with
        | some a => pauseAudio s.audios a
        | none => s.audios) ++ [{ src := (s.object e).audio, paused := true }])
        (match s.activeAudio with
        | some a => pauseAudio s.audios a
        | none => s.audios).length := by
  simp only [click, h]

theorem click_object (s : State) (e : Nat) (h : s.intersected = some e) :
    (click s).object = setGlow s.object e 3 := by
  simp only [click, h]

theorem click_timers (s : State) (e : Nat) (h : s.intersected = some e) :
    (click s).timers = s.timers ++ [(500, e)] := by
  simp only [click, h]

theorem click_activeAudio (s : State) (e : Nat) (h : s.intersected = some e) :
    (click s).activeAudio = some s.audios.length := by
  simp only [click, h]
  cases s.activeAudio <;> simp [pauseAudio]

theorem click_intersected (s : State) : (click s).intersected = s.intersected := by
  unfold click
  split <;> simp_all

theorem click_cardGroups (s : State) : (click s).cardGroups = s.cardGroups := by
  unfold click
  split <;> rfl

theorem click_audio_effect (s : State) (e : Nat) (h : s.intersected = some e) :
    (∀ a au, s.activeAudio = some a → s.audios[a]? = some au →
      (click s).audios[a]? = some { au with paused := true }) ∧
    (click s).audios[s.audios.length]? =
      some { src := (s.object e).audio, paused := false } ∧
    (∀ i, s.activeAudio ≠ some i → i < s.audios.length →
      (click s).audios[i]? = s.audios[i]?) ∧
    (click s).audios.length = s.audios.length + 1 := by
  rw [click_audios s e h]
  cases ha : s.activeAudio with
  | none =>
    refine ⟨fun a au h' => (by cases h'), ?_, ?_, ?_⟩
    · simp [playAudio]
    · intro i _ hi
      simp only [playAudio]
      rw [List.getElem?_modify_ne _ _ (Nat.ne_of_gt hi), List.getElem?_append_left hi]
    · simp [playAudio]
  | some a =>
    have hlen : (pauseAudio s.audios a).length = s.audios.length := by simp [pauseAudio]
    refine ⟨?_, ?_, ?_, ?_⟩
    · intro a' au ha' hau
      cases ha'
      have hlt : a < s.audios.length := by
        by_contra hge
        rw [List.getElem?_eq_none (not_lt.mp hge)] at hau
        cases hau
      simp only [playAudio, hlen]
      rw [List.getElem?_modify_ne _ _ (Nat.ne_of_gt hlt),
        List.getElem?_append_left (by rw [hlen]; exact hlt)]
      simp [pauseAudio, hau]
    · simp [playAudio, hlen]
    · intro i hne hi
      simp only [playAudio, hlen]
      rw [List.getElem?_modify_ne _ _ (Nat.ne_of_gt hi),
        List.getElem?_append_left (by rw [hlen]; exact hi)]
      have : a ≠ i := fun h' => hne (by rw [h'])
      simp [pauseAudio, List.getElem?_modify_ne _ _ this]
    · simp [playAudio, hlen]

theorem flashReset_effect (e : Nat) (s : State) :
    ((flashReset e s).object e).frontMat.emissiveIntensity = 0 ∧
    ((flashReset e s).object e).backMat.emissiveIntensity = 0 ∧
    ∀ x, x ≠ e → (flashReset e s).object x = s.object x :=
  ⟨(setGlow_same s.object e 0).1, (setGlow_same s.object e 0).2,
    fun x hx => setGlow_other s.object e 0 x hx⟩

/-- C2. Click postcondition: when `e` is the current pick, `click` pauses the
audio that was active (if any), puts a new audio element, built from the audio
reference of `e` and playing, into the active-audio slot, sets both glow
scalars of `e` to `3` and leaves every other object as it was; it schedules one
reset for `e` after 500 ms, and that reset, whenever it fires, sets both glow
scalars of `e` to `0` and touches no other object. -/
theorem click_postcondition (s : State) (e : Nat) (h : s.intersected = some e) :
    (∀ a au, s.activeAudio = some a → s.audios[a]? = some au →
      (click s).audios[a]? = some { au with paused := true }) ∧
    s.audios[s.audios.length]? = none ∧
    (click s).activeAudio = some s.audios.length ∧
    (click s).audios[s.audios.length]? =
      some { src := (s.object e).audio, paused := false } ∧
    ((click s).object e).frontMat.emissiveIntensity = 3 ∧
    ((click s).object e).backMat.emissiveIntensity = 3 ∧
    (∀ x, x ≠ e → (click s).object x = s.object x) ∧
    (click s).timers = s.timers ++ [(500, e)] ∧
    (∀ s1 : State,
      ((flashReset e s1).object e).frontMat.emissiveIntensity = 0 ∧
      ((flashReset e s1).object e).backMat.emissiveIntensity = 0 ∧
      ∀ x, x ≠ e → (flashReset e s1).object x = s1.object x) ∧
    (s.timers = [] →
      ((fireTimer (click s)).object e).frontMat.emissiveIntensity = 0 ∧
      ((fireTimer (click s)).object e).backMat.emissiveIntensity = 0) := by
  obtain ⟨h1, h2, _, _⟩ := click_audio_effect s e h
  refine ⟨h1, by simp, click_activeAudio s e h, h2, ?_, ?_, ?_, click_timers s e h,
    fun s1 => flashReset_effect e s1, ?_⟩
  · rw [click_object s e h]; exact (setGlow_same _ _ _).1
  · rw [click_object s e h]; exact (setGlow_same _ _ _).2
  · intro x hx
    rw [click_object s e h]; exact setGlow_other _ _ _ _ hx
  · intro ht
    have hf : fireTimer (click s) = flashReset e { click s with timers := [] } := by
      unfold fireTimer
      rw [click_timers s e h, ht]
      rfl
    rw [hf]
    exact ⟨(flashReset_effect e _).1, (flashReset_effect e _).2.1⟩

theorem click_postcondition_witness :
    (pickStep (some 8) vault).intersected = some 8 ∧
    (click (pickStep (some 8) vault)).audios[(pickStep (some 8) vault).audios.length]? =
      some { src := some "wow.mp3", paused := false } ∧
    ((click (pickStep (some 8) vault)).object 8).frontMat.emissiveIntensity = 3 ∧
    (click (pickStep (some 8) vault)).object 19 = vault.object 19 := by
  have h := click_postcondition (pickStep (some 8) vault) 8 (pickStep_some_intersected 8 vault)
  refine ⟨pickStep_some_intersected 8 vault, ?_, h.2.2.2.2.1, ?_⟩
  · rw [h.2.2.2.1, pickStep_object, vault_object_8]
  · rw [h.2.2.2.2.2.2.1 19 (by decide), pickStep_object]

/-- C9, as the code has it: `click` has no test for an absent audio reference.
With `e` the current pick and `userData.audio` of `e` absent it does what it
does for every pick: the audio that was active is paused, the active-audio
slot receives a new element built from the absent reference, on which `play`
is called, and both glow scalars of `e` become `3`; every other object is
unchanged. -/
theorem click_without_audio (s : State) (e : Nat) (h : s.intersected = some e)
    (hnone : (s.object e).audio = none) :
    (∀ a au, s.activeAudio = some a → s.audios[a]? = some au →
      (click s).audios[a]? = some { au with paused := true }) ∧
    (click s).activeAudio = some s.audios.length ∧
    (click s).audios[s.audios.length]? = some { src := none, paused := false } ∧
    ((click s).object e).frontMat.emissiveIntensity = 3 ∧
    ((click s).object e).backMat.emissiveIntensity = 3 ∧
    (∀ x, x ≠ e → (click s).object x = s.object x) := by
  obtain ⟨h1, h2, _, _⟩ := click_audio_effect s e h
  rw [hnone] at h2
  refine ⟨h1, click_activeAudio s e h, h2, ?_, ?_, ?_⟩
  · rw [click_object s e h]; exact (setGlow_same _ _ _).1
  · rw [click_object s e h]; exact (setGlow_same _ _ _).2
  · intro x hx
    rw [click_object s e h]; exact setGlow_other _ _ _ _ hx

theorem click_without_audio_witness :
    ((pickStep (some 19) vault).object 19).audio = none ∧
    ((click (pickStep (some 19) vault)).object 19).backMat.emissiveIntensity = 3 ∧
    (click (pickStep (some 19) vault)).object 8 = vault.object 8 := by
  have ha : ((pickStep (some 19) vault).object 19).audio = none := by
    rw [pickStep_object, vault_object_19]
  have h := click_without_audio (pickStep (some 19) vault) 19
    (pickStep_some_intersected 19 vault) ha
  refine ⟨ha, h.2.2.2.2.1, ?_⟩
  rw [h.2.2.2.2.2 8 (by decide), pickStep_object]

theorem playing_audios : playing.audios.length = 1 ∧ playing.activeAudio = some 0 ∧
    playing.audios[0]? = some { src := some "wow.mp3", paused := false } := by
  have hi := pickStep_some_intersected 8 vault
  have hl : (pickStep (some 8) vault).audios.length = 0 := by
    rw [(pickStep_audios _ _).1, vault_audios]; rfl
  have ha := click_activeAudio _ 8 hi
  obtain ⟨_, h2, _, h4⟩ := click_audio_effect _ 8 hi
  rw [hl] at ha h2 h4
  rw [pickStep_object, vault_object_8] at h2
  exact ⟨h4, ha, h2⟩

theorem quietPick_object_19 : quietPick.object 19 = vault.object 19 := by
  unfold quietPick playing
  rw [pickStep_object, click_object _ 8 (pickStep_some_intersected 8 vault),
    setGlow_other _ _ _ _ (by decide), pickStep_object]

/-- C9 fails as stated: with the first sound playing and the second card, which
has no sound, as the pick, a click pauses the playing sound, replaces the
active-audio slot and sets the glow scalars of the second card to `3`. -/
theorem click_without_audio_changes_state :
    quietPick.intersected = some 19 ∧
    (quietPick.object 19).audio = none ∧
    quietPick.activeAudio = some 0 ∧
    quietPick.audios[0]? = some { src := some "wow.mp3", paused := false } ∧
    (click quietPick).activeAudio = some 1 ∧
    (click quietPick).audios[0]? = some { src := some "wow.mp3", paused := true } ∧
    (quietPick.object 19).frontMat.emissiveIntensity = 0 ∧
    ((click quietPick).object 19).frontMat.emissiveIntensity = 3 := by
  have hi : quietPick.intersected = some 19 := pickStep_some_intersected 19 playing
  have hau : quietPick.audios = playing.audios := (pickStep_audios _ _).1
  have hact : quietPick.activeAudio = some 0 :=
    (pickStep_audios _ _).2.1.trans playing_audios.2.1
  have h0 : quietPick.audios[0]? = some { src := some "wow.mp3", paused := false } := by
    rw [hau]; exact playing_audios.2.2
  have hlen : quietPick.audios.length = 1 := by rw [hau]; exact playing_audios.1
  have hc := click_activeAudio quietPick 19 hi
  rw [hlen] at hc
  refine ⟨hi, ?_, hact, h0, hc, (click_audio_effect quietPick 19 hi).1 0 _ hact h0, ?_, ?_⟩
  · rw [quietPick_object_19, vault_object_19]
  · rw [quietPick_object_19, vault_object_19]
  · rw [click_object quietPick 19 hi]
    exact (setGlow_same _ _ _).1

/-! ## Glow and scale in the frame -/

theorem animate_object_card (sin : ℚ → ℚ) (t : ℚ) (p : Option Nat) (s : State) (e : Nat)
    (he : e ∈ s.cardGroups) (hl : s.cardGroups.Nodup) :
    (animate sin t p s).object e =
      animateCard sin t (decide (s.intersected = some e)) (s.object e) := by
  rw [animate_object]
  have h := animateCards_object sin t s hl e
  rw [if_pos he] at h
  exact h

/-- C3, what the code does: after a click on the pick `e` has set both glow
scalars of `e` to `3` and scheduled the reset, the card step of the very next
frame overwrites them with the hover pulse `0.3 + 0.3 * sin (8 t)`, which is at
most `0.6`; the reset is still pending.  A card that holds the flash value and
is not the pick is eased to `2.7` by the frame. -/
theorem flash_overwritten_by_frame (sin : ℚ → ℚ) (t : ℚ) (p : Option Nat) (s : State) (e : Nat)
    (h : s.intersected = some e) (he : e ∈ s.cardGroups) (hl : s.cardGroups.Nodup)
    (hsin : |sin (t * 8)| ≤ 1) :
    ((click s).object e).frontMat.emissiveIntensity = 3 ∧
    ((click s).object e).backMat.emissiveIntensity = 3 ∧
    (click s).timers = s.timers ++ [(500, e)] ∧
    ((animate sin t p (click s)).object e).frontMat.emissiveIntensity =
      0.3 + sin (t * 8) * 0.3 ∧
    ((animate sin t p (click s)).object e).backMat.emissiveIntensity =
      0.3 + sin (t * 8) * 0.3 ∧
    ((animate sin t p (click s)).object e).frontMat.emissiveIntensity ≤ 0.6 ∧
    ((animate sin t p (click s)).object e).frontMat.emissiveIntensity ≠ 3 ∧
    (∀ d : Card, d.frontMat.emissiveIntensity = 3 →
      (animateCard sin t false d).frontMat.emissiveIntensity = 2.7) := by
  have hobj : (animate sin t p (click s)).object e =
      animateCard sin t true ((click s).object e) := by
    rw [animate_object_card sin t p (click s) e (by rw [click_cardGroups]; exact he)
      (by rw [click_cardGroups]; exact hl), click_intersected, h]
    simp
  have hf : (animateCard sin t true ((click s).object e)).frontMat.emissiveIntensity =
      0.3 + sin (t * 8) * 0.3 := by simp [animateCard]
  have hb : (animateCard sin t true ((click s).object e)).backMat.emissiveIntensity =
      0.3 + sin (t * 8) * 0.3 := by simp [animateCard]
  rw [abs_le] at hsin
  rw [hobj, hf, hb, click_object s e h]
  refine ⟨(setGlow_same _ _ _).1, (setGlow_same _ _ _).2, click_timers s e h, rfl, rfl, ?_, ?_, ?_⟩
  · linarith [hsin.2]
  · intro h3
    linarith [hsin.2]
  · intro d hd
    simp [animateCard, MathUtils.lerp, hd]
    norm_num

theorem flash_overwritten_by_frame_witness :
    ((click (pickStep (some 8) vault)).object 8).frontMat.emissiveIntensity = 3 ∧
    ((animate (fun _ => 0) 0 (some 8) (click (pickStep (some 8) vault))).object
      8).frontMat.emissiveIntensity = 0.3 := by
  have h := flash_overwritten_by_frame (fun _ => 0) 0 (some 8) (pickStep (some 8) vault) 8
    (pickStep_some_intersected 8 vault)
    (by rw [pickStep_cardGroups, vault_cardGroups]; decide)
    (by rw [pickStep_cardGroups, vault_cardGroups]; decide)
    (by norm_num)
  refine ⟨h.1, ?_⟩
  rw [h.2.2.2.1]
  norm_num

theorem animateCard_scale (sin : ℚ → ℚ) (t : ℚ) (d : Card) :
    (animateCard sin t true d).scale = d.scale.lerp ⟨1.25, 1.25, 1.25⟩ 0.1 := by
  simp [animateCard]

theorem hoverRun_scale_succ (sin : ℚ → ℚ) (times : Nat → ℚ) (s : State) (e : Nat)
    (he : e ∈ s.cardGroups) (hl : s.cardGroups.Nodup) (hp : s.intersected = some e) (n : Nat) :
    ((hoverRun sin times e (n + 1) s).object e).scale =
      ((hoverRun sin times e n s).object e).scale.lerp ⟨1.25, 1.25, 1.25⟩ 0.1 := by
  show ((animate sin (times n) (some e) (hoverRun sin times e n s)).object e).scale = _
  rw [animate_object_card sin (times n) (some e) _ e
    (by rw [hoverRun_cardGroups]; exact he) (by rw [hoverRun_cardGroups]; exact hl),
    hoverRun_intersected sin times e n s hp]
  simp only [decide_True]
  exact animateCard_scale _ _ _

theorem hoverRun_scale (sin : ℚ → ℚ) (times : Nat → ℚ) (s : State) (e : Nat)
    (he : e ∈ s.cardGroups) (hl : s.cardGroups.Nodup) (hp : s.intersected = some e)
    (h1 : (s.object e).scale = ⟨1, 1, 1⟩) (n : Nat) :
    ((hoverRun sin times e n s).object e).scale =
      ⟨1.25 - 0.25 * (9 / 10) ^ n, 1.25 - 0.25 * (9 / 10) ^ n, 1.25 - 0.25 * (9 / 10) ^ n⟩ := by
  induction n with
  | zero =>
    show (s.object e).scale = _
    rw [h1]
    norm_num
  | succ n ih =>
    rw [hoverRun_scale_succ sin times s e he hl hp n, ih]
    simp only [Vector3.lerp, Vector3.mk.injEq]
    refine ⟨?_, ?_, ?_⟩ <;> ring

/-- C6. Scale easing: for a card group `e` that starts at scale `1` and is the
pick in every frame, the scale after `n` frames is `1.25 - 0.25 * (9/10)^n` on
each axis; each frame adds `0.1 * (1.25 - scale)`; the scale is `1.025` after
one frame, strictly increasing, never above `1.25`, and for every `ε > 0` it
is within `ε` of `1.25` from some frame on. -/
theorem scale_easing (sin : ℚ → ℚ) (times : Nat → ℚ) (s : State) (e : Nat)
    (he : e ∈ s.cardGroups) (hl : s.cardGroups.Nodup) (hp : s.intersected = some e)
    (h1 : (s.object e).scale = ⟨1, 1, 1⟩) :
    (∀ n, ((hoverRun sin times e n s).object e).scale =
      ⟨1.25 - 0.25 * (9 / 10) ^ n, 1.25 - 0.25 * (9 / 10) ^ n, 1.25 - 0.25 * (9 / 10) ^ n⟩) ∧
    (∀ n, ((hoverRun sin times e (n + 1) s).object e).scale.x =
      ((hoverRun sin times e n s).object e).scale.x +
        0.1 * (1.25 - ((hoverRun sin times e n s).object e).scale.x)) ∧
    ((hoverRun sin times e 1 s).object e).scale = ⟨1.025, 1.025, 1.025⟩ ∧
    (∀ n, ((hoverRun sin times e n s).object e).scale.x <
      ((hoverRun sin times e (n + 1) s).object e).scale.x) ∧
    (∀ n, ((hoverRun sin times e n s).object e).scale.x < 1.25) ∧
    (∀ ε : ℚ, 0 < ε → ∃ N, ∀ n, N ≤ n →
      |((hoverRun sin times e n s).object e).scale.x - 1.25| < ε) := by
  have hc := hoverRun_scale sin times s e he hl hp h1
  have hpos : ∀ n : Nat, (0 : ℚ) < (9 / 10) ^ n := fun n => pow_pos (by norm_num) n
  refine ⟨hc, ?_, ?_, ?_, ?_, ?_⟩
  · intro n
    rw [hoverRun_scale_succ sin times s e he hl hp n]
    simp only [Vector3.lerp]
    ring
  · rw [hc 1]
    norm_num
  · intro n
    rw [hc n, hc (n + 1), pow_succ]
    have := hpos n
    show (1.25 : ℚ) - 0.25 * (9 / 10) ^ n < 1.25 - 0.25 * ((9 / 10) ^ n * (9 / 10))
    linarith
  · intro n
    rw [hc n]
    have := hpos n
    show (1.25 : ℚ) - 0.25 * (9 / 10) ^ n < 1.25
    linarith
  · intro ε hε
    obtain ⟨N, hN⟩ := exists_pow_lt_of_lt_one hε (show (9 / 10 : ℚ) < 1 by norm_num)
    refine ⟨N, fun n hn => ?_⟩
    rw [hc n]
    have hle : (9 / 10 : ℚ) ^ n ≤ (9 / 10) ^ N :=
      pow_le_pow_of_le_one (by norm_num) (by norm_num) hn
    have := hpos n
    show |(1.25 : ℚ) - 0.25 * (9 / 10) ^ n - 1.25| < ε
    rw [abs_lt]
    constructor <;> linarith

theorem scale_easing_witness :
    ((hoverRun (fun _ => 0) (fun _ => 0) 8 1 (pickStep (some 8) vault)).object 8).scale =
      ⟨1.025, 1.025, 1.025⟩ ∧
    ((hoverRun (fun _ => 0) (fun _ => 0) 8 2 (pickStep (some 8) vault)).object 8).scale.x =
      1.0475 := by
  have h := scale_easing (fun _ => 0) (fun _ => 0) (pickStep (some 8) vault) 8
    (by rw [pickStep_cardGroups, vault_cardGroups]; decide)
    (by rw [pickStep_cardGroups, vault_cardGroups]; decide)
    (pickStep_some_intersected 8 vault)
    (by rw [pickStep_object, vault_object_8])
  refine ⟨h.2.2.1, ?_⟩
  rw [h.1 2]
  norm_num

theorem label_once_per_transition_witness :
    (hoverRun (fun _ => 0) (fun _ => 0) 8 3 vault).label = ["DOGE"] ∧
    (hoverRun (fun _ => 0) (fun _ => 0) 8 3 vault).intersected = some 8 := by
  have h := (label_once_per_transition (fun _ => 0) (fun _ => 0) vault 8).2.2
    (by rw [vault_intersected]; decide)
  have h2 := h.2 2
  rw [vault_label, vault_object_8] at h2
  exact ⟨h2.1, h2.2.1⟩

/-! ## The scene hierarchy and the ancestor walk -/

theorem parentSpec_block (k i j : Nat) (hi : i < k) (hj : j ≤ 10) :
    parentSpec k (8 + 11 * i + j) =
      if j = 0 then some 2 else if j ≤ 6 then some (8 + 11 * i) else some (8 + 11 * i + 6) := by
  have h1 : ¬ (8 + 11 * i + j < 8) := by omega
  have h2 : 8 + 11 * i + j < 8 + 11 * k := by omega
  have h3 : (8 + 11 * i + j - 8) % 11 = j := by omega
  have h4 : 8 + 11 * i + j - j = 8 + 11 * i := by omega
  simp only [parentSpec, if_neg h1, if_pos h2, h3, h4]

theorem parentSpec_low (k id : Nat) (h : id < 8) :
    parentSpec k id = if id = 0 ∨ id = 1 then none else some 0 := by
  simp only [parentSpec, if_pos h]

theorem parentSpec_high (k id : Nat) (h : 8 + 11 * k ≤ id) : parentSpec k id = none := by
  have h1 : ¬ (id < 8) := by omega
  have h2 : ¬ (id < 8 + 11 * k) := by omega
  simp only [parentSpec, if_neg h1, if_neg h2]

theorem exists_block (k id : Nat) (h1 : 8 ≤ id) (h2 : id < 8 + 11 * k) :
    ∃ i j, i < k ∧ j ≤ 10 ∧ id = 8 + 11 * i + j :=
  ⟨(id - 8) / 11, (id - 8) % 11, by omega, by omega, by omega⟩

theorem parentSpec_succ (k id : Nat) (h : id < 8 + 11 * k) :
    parentSpec (k + 1) id = parentSpec k id := by
  rcases Nat.lt_or_ge id 8 with hlo | hge
  · rw [parentSpec_low _ _ hlo, parentSpec_low _ _ hlo]
  · obtain ⟨i, j, hi, hj, rfl⟩ := exists_block k id hge h
    rw [parentSpec_block k i j hi hj, parentSpec_block (k + 1) i j (by omega) hj]

theorem parentSpec_new (k j : Nat) (hj : j ≤ 10) :
    parentSpec (k + 1) (8 + 11 * k + j) =
      if j = 0 then some 2 else if j ≤ 6 then some (8 + 11 * k) else some (8 + 11 * k + 6) :=
  parentSpec_block (k + 1) k j (by omega) hj

theorem built_buildCard (s : State) (img : Img) (i k : Nat) (h : Built s k) :
    Built (buildCard s img i) (k + 1) := by
  obtain ⟨hn, hs, hv, hc, hp⟩ := h
  refine ⟨?_, hs, hv, ?_, ?_⟩
  · simp only [buildCard, createBrackets, Graph.new, Graph.add, List.foldl_cons, List.foldl_nil,
      hn]
    omega
  · simp only [buildCard, createBrackets, Graph.new, Graph.add, hc, hn, List.range_succ,
      List.map_append, List.map_cons, List.map_nil]
  · intro id
    simp only [buildCard, createBrackets, Graph.new, Graph.add, List.foldl_cons, List.foldl_nil,
      hn, hv, Function.update_apply]
    rcases Nat.lt_or_ge id (8 + 11 * k) with hlo | hge
    · rw [parentSpec_succ k id hlo, ← hp id]
      rw [if_neg, if_neg, if_neg, if_neg, if_neg, if_neg, if_neg, if_neg, if_neg, if_neg, if_neg]
        <;> omega
    · rcases Nat.lt_or_ge (8 + 11 * k + 10) id with hhi | hle
      · rw [parentSpec_high (k + 1) id (by omega), ← parentSpec_high k id (by omega), ← hp id]
        rw [if_neg, if_neg, if_neg, if_neg, if_neg, if_neg, if_neg, if_neg, if_neg, if_neg,
          if_neg] <;> omega
      · obtain ⟨j, hj, rfl⟩ : ∃ j, j ≤ 10 ∧ id = 8 + 11 * k + j :=
          ⟨id - (8 + 11 * k), by omega, by omega⟩
        rw [parentSpec_new k j hj]
        interval_cases j
        · rw [if_pos] <;> rfl
        · rw [if_neg, if_neg, if_neg, if_neg, if_neg, if_neg, if_neg, if_neg, if_neg, if_neg,
            if_pos] <;> first | rfl | omega
        · rw [if_neg, if_neg, if_neg, if_neg, if_neg, if_neg, if_neg, if_neg, if_neg, if_pos]
            <;> first | rfl | omega
        · rw [if_neg, if_neg, if_neg, if_neg, if_neg, if_neg, if_neg, if_neg, if_pos]
            <;> first | rfl | omega
        · rw [if_neg, if_neg, if_neg, if_neg, if_neg, if_neg, if_neg, if_pos]
            <;> first | rfl | omega
        · rw [if_neg, if_neg, if_neg, if_neg, if_neg, if_neg, if_pos]
            <;> first | rfl | omega
        · rw [if_neg, if_pos] <;> first | rfl | omega
        · rw [if_neg, if_neg, if_neg, if_neg, if_neg, if_pos] <;> first | rfl | omega
        · rw [if_neg, if_neg, if_neg, if_neg, if_pos] <;> first | rfl | omega
        · rw [if_neg, if_neg, if_neg, if_pos] <;> first | rfl | omega
        · rw [if_neg, if_neg, if_pos] <;> first | rfl | omega

theorem built_buildFrom (imgs : List Img) (i k : Nat) (s : State) (h : Built s k) :
    Built (buildFrom i imgs s) (k + imgs.length) := by
  induction imgs generalizing i k s with
  | nil => exact h
  | cons img rest ih =>
    have := ih (i + 1) (k + 1) (buildCard s img i) (built_buildCard s img i k h)
    rw [List.length_cons, show k + (rest.length + 1) = k + 1 + rest.length by omega]
    exact this

theorem built_init (imgs : List Img) (random : Nat → ℚ) :
    Built (init imgs random) imgs.length := by
  have h := built_buildFrom imgs 0 0
    { graph := (((((({ parent := fun _ => none, next := 8 } : Graph).add 0 2).add 0 3).add 0
        4).add 0 5).add 0 6).add 0 7
      scene := 0, camera := 1, vaultGroup := 2, dustParticles := 6
      object := fun _ => noCard, cardGroups := [], intersected := none, activeAudio := none
      audios := [], timers := [], label := [], scanOffsetY := 0, vaultRotationY := 0
      dustRotationY := 0, dust := createEnvironment random, mouseX := 0, mouseY := 0
      currentRotationDir := 1, isNavigating := false, isInitialized := false }
    (by
      refine ⟨rfl, rfl, rfl, rfl, ?_⟩
      intro id
      simp only [Graph.add, Function.update_apply]
      rcases Nat.lt_or_ge id 8 with hlo | hge
      · rw [parentSpec_low 0 id hlo]
        interval_cases id <;> rfl
      · rw [parentSpec_high 0 id (by omega)]
        rw [if_neg, if_neg, if_neg, if_neg, if_neg, if_neg] <;> omega)
  rw [Nat.zero_add] at h
  exact h

theorem mem_cardGroups_iff (s : State) (n : Nat) (h : Built s n) (x : Nat) :
    x ∈ s.cardGroups ↔ ∃ i, i < n ∧ x = 8 + 11 * i := by
  rw [h.2.2.2.1]
  simp only [List.mem_map, List.mem_range]
  constructor
  · rintro ⟨i, hi, rfl⟩; exact ⟨i, hi, rfl⟩
  · rintro ⟨i, hi, rfl⟩; exact ⟨i, hi, rfl⟩

theorem parent_block (s : State) (n : Nat) (h : Built s n) (i r : Nat) (hi : i < n)
    (hr : r ≤ 10) :
    s.graph.parent (8 + 11 * i + r) =
      if r = 0 then some 2 else if r ≤ 6 then some (8 + 11 * i) else some (8 + 11 * i + 6) := by
  rw [h.2.2.2.2, parentSpec_block n i r hi hr]

/-- Every object from which a card group is reached by parent links lies in the block of that card. -/
theorem within_block (s : State) (n : Nat) (h : Built s n) (k : Nat) :
    ∀ obj j, j < n → ancestor s.graph k obj = some (8 + 11 * j) →
      ∃ r, r ≤ 10 ∧ obj = 8 + 11 * j + r := by
  induction k with
  | zero =>
    intro obj j _ ha
    simp only [ancestor, Option.some.injEq] at ha
    exact ⟨0, by omega, by omega⟩
  | succ k ih =>
    intro obj j hj ha
    rw [ancestor, h.2.2.2.2 obj] at ha
    rcases Nat.lt_or_ge obj 8 with hlo | hge
    · rw [parentSpec_low n obj hlo] at ha
      split at ha
      · simp at ha
      · obtain ⟨r, _, hr⟩ := ih 0 j hj (by simpa using ha)
        omega
    · rcases Nat.lt_or_ge obj (8 + 11 * n) with hin | hout
      · obtain ⟨i, r, hi, hr, rfl⟩ := exists_block n obj hge hin
        rw [parentSpec_block n i r hi hr] at ha
        split at ha
        · obtain ⟨r', _, hr'⟩ := ih 2 j hj (by simpa using ha)
          omega
        · split at ha
          · obtain ⟨r', _, hr'⟩ := ih (8 + 11 * i) j hj (by simpa using ha)
            exact ⟨r, hr, by omega⟩
          · obtain ⟨r', _, hr'⟩ := ih (8 + 11 * i + 6) j hj (by simpa using ha)
            exact ⟨r, hr, by omega⟩
      · rw [parentSpec_high n obj hout] at ha
        simp at ha

theorem walk_card (s : State) (n : Nat) (h : Built s n) (i : Nat) (hi : i < n) (f : Nat) :
    ancestorWalk s.graph s.cardGroups (f + 1) (8 + 11 * i) = some (8 + 11 * i) := by
  have hp := parent_block s n h i 0 hi (by omega)
  rw [Nat.add_zero, if_pos rfl] at hp
  have hm : 8 + 11 * i ∈ s.cardGroups := (mem_cardGroups_iff s n h _).mpr ⟨i, hi, rfl⟩
  simp only [ancestorWalk, hp, if_pos hm]

theorem walk_step (s : State) (n : Nat) (h : Built s n) (i r p : Nat)
    (hr0 : 0 < r) (hr : r ≤ 10) (hp : s.graph.parent (8 + 11 * i + r) = some p) (f : Nat) :
    ancestorWalk s.graph s.cardGroups (f + 1) (8 + 11 * i + r) =
      ancestorWalk s.graph s.cardGroups f p := by
  have hm : ¬ (8 + 11 * i + r ∈ s.cardGroups) := by
    rw [mem_cardGroups_iff s n h]
    rintro ⟨i', _, hi'⟩
    omega
  simp only [ancestorWalk, hp, if_neg hm]

theorem walk_block (s : State) (n : Nat) (h : Built s n) (i r : Nat) (hi : i < n)
    (hr : r ≤ 10) (f : Nat) (hf : 3 ≤ f) :
    ancestorWalk s.graph s.cardGroups f (8 + 11 * i + r) = some (8 + 11 * i) := by
  obtain ⟨f, rfl⟩ : ∃ f', f = f' + 3 := ⟨f - 3, by omega⟩
  have hp := parent_block s n h i r hi hr
  rcases Nat.eq_zero_or_pos r with h0 | hpos
  · subst h0
    exact walk_card s n h i hi (f + 2)
  · rw [if_neg (by omega)] at hp
    by_cases h6 : r ≤ 6
    · rw [if_pos h6] at hp
      rw [walk_step s n h i r _ hpos hr hp (f + 2)]
      exact walk_card s n h i hi (f + 1)
    · rw [if_neg h6] at hp
      rw [walk_step s n h i r _ hpos hr hp (f + 2)]
      have hp6 := parent_block s n h i 6 hi (by omega)
      rw [if_neg (by omega), if_pos (by omega)] at hp6
      rw [walk_step s n h i 6 _ (by omega) (by omega) hp6 (f + 1)]
      exact walk_card s n h i hi f

/-- C4. Ancestor walk: in the hierarchy that `init` builds from any gallery,
for every registered card group `e` and every object `obj` that is `e` or a
descendant of `e` at any depth, the loop of the picking step started at `obj`
stops (any bound of at least three tests suffices) with `obj = e`, which is
neither the vault group nor the scene, and the picking step then runs with
pick `e`.  Card `i` is object `8 + 11 * i`; its back plane `8 + 11 * i + 3` is
a child of it, and its bracket lines `8 + 11 * i + 7` to `8 + 11 * i + 10` are
at depth two below it. -/
theorem ancestor_walk_resolves (imgs : List Img) (random : Nat → ℚ) (e obj fuel : Nat)
    (he : e ∈ (init imgs random).cardGroups)
    (hobj : IsWithin (init imgs random).graph e obj) (hf : 3 ≤ fuel) :
    ancestorWalk (init imgs random).graph (init imgs random).cardGroups fuel obj = some e ∧
    e ≠ (init imgs random).vaultGroup ∧ e ≠ (init imgs random).scene ∧
    raycastStep fuel (some obj) (init imgs random) =
      some (pickStep (some e) (init imgs random)) ∧
    (∀ i, i < imgs.length →
      8 + 11 * i ∈ (init imgs random).cardGroups ∧
      (init imgs random).graph.parent (8 + 11 * i + 3) = some (8 + 11 * i) ∧
      (∀ r, 1 ≤ r → r ≤ 6 → ancestor (init imgs random).graph 1 (8 + 11 * i + r) =
        some (8 + 11 * i)) ∧
      (∀ r, 7 ≤ r → r ≤ 10 → ancestor (init imgs random).graph 2 (8 + 11 * i + r) =
        some (8 + 11 * i))) := by
  have hb := built_init imgs random
  obtain ⟨j, hj, rfl⟩ := (mem_cardGroups_iff _ _ hb e).mp he
  obtain ⟨k, hk⟩ := hobj
  obtain ⟨r, hr, rfl⟩ := within_block _ _ hb k obj j hj hk
  have hw := walk_block _ _ hb j r hj hr fuel hf
  have hchild : ∀ i, i < imgs.length → ∀ r, 1 ≤ r → r ≤ 6 →
      ancestor (init imgs random).graph 1 (8 + 11 * i + r) = some (8 + 11 * i) := by
    intro i hi r h1 h6
    have hp := parent_block _ _ hb i r hi (by omega)
    rw [if_neg (by omega), if_pos h6] at hp
    simp only [ancestor, hp, Option.some_bind]
  refine ⟨hw, ?_, ?_, ?_, ?_⟩
  · rw [hb.2.2.1]; omega
  · rw [hb.2.1]; omega
  · simp only [raycastStep, hw, Option.map_some']
  · intro i hi
    refine ⟨(mem_cardGroups_iff _ _ hb _).mpr ⟨i, hi, rfl⟩, ?_, hchild i hi, ?_⟩
    · have hp := parent_block _ _ hb i 3 hi (by omega)
      rw [if_neg (by omega), if_pos (by omega)] at hp
      exact hp
    · intro r h7 h10
      have hp := parent_block _ _ hb i r hi h10
      rw [if_neg (by omega), if_neg (by omega)] at hp
      have h6 := hchild i hi 6 (by omega) (by omega)
      rw [ancestor, hp, Option.some_bind]
      exact h6

theorem ancestor_walk_resolves_witness :
    ancestorWalk vault.graph vault.cardGroups 3 29 = some 19 ∧
    vault.graph.parent 22 = some 19 ∧
    raycastStep 3 (some 29) vault = some (pickStep (some 19) vault) := by
  have hb : Built vault 2 := built_init gallery _
  have h29 : IsWithin vault.graph 19 29 := by
    refine ⟨2, ?_⟩
    have h1 := parent_block vault 2 hb 1 10 (by omega) (by omega)
    have h2 := parent_block vault 2 hb 1 6 (by omega) (by omega)
    rw [if_neg (by omega), if_neg (by omega)] at h1
    rw [if_neg (by omega), if_pos (by omega)] at h2
    simp only [ancestor, h1, h2, Option.some_bind]
  have h := ancestor_walk_resolves gallery (fun _ => 1 / 2) 19 29 3
    ((mem_cardGroups_iff vault 2 hb 19).mpr ⟨1, by omega, rfl⟩) h29 (by omega)
  exact ⟨h.1, (h.2.2.2.2 1 (by decide)).2.1, h.2.2.2.1⟩

end MoodMeme
